import Mathlib

set_option maxRecDepth 4000

namespace KidsChurch

/-!
Shallow embedding of the Basso Kids Church attendance app
(src/src/app/today/page.tsx and src/src/components), together with proofs
about its age classification, service-date navigation, roster assembly,
check-in / check-out operations, guardian directory operations and search
escaping. Definitions are translated from the TypeScript source; the few
store-level behaviours that live in the Supabase schema rather than the
source tree are modelled from the specification and marked as such.
-/

/-- Age group keys (src/src/app/today/page.tsx, type GroupKey, line 31). -/
inductive GroupKey where
  | KINDY_PREPRIMARY
  | YEARS_1_3
  | YEARS_4_6
deriving DecidableEq, Repr

/-- A civil calendar date: year, month (1 to 12) and day of month. This is
the view a JS Date exposes through getFullYear, getMonth (zero-based, hence
plus one) and getDate. -/
structure Ymd where
  y : Int
  m : Int
  d : Int
deriving DecidableEq, Repr

/-- Embeds the core of ageOnJune30ThisYear (page.tsx lines 114-127) with the
cutoff date made explicit: age is the full year difference, lowered by one
when the cutoff month precedes the birth month, or the months agree and the
cutoff day precedes the birth day. -/
def ageAtCutoff (cutoff dob : Ymd) : Int :=
  let age := cutoff.y - dob.y
  let m := cutoff.m - dob.m
  if m < 0 ∨ (m = 0 ∧ cutoff.d < dob.d) then age - 1 else age

/-- Embeds ageOnJune30ThisYear (page.tsx lines 114-127): null date of birth
gives null, otherwise the age at June 30 of the current year
(new Date(now.getFullYear(), 5, 30)). -/
def ageOnJune30ThisYear (currentYear : Int) (dob : Option Ymd) : Option Int :=
  dob.map (fun b => ageAtCutoff ⟨currentYear, 6, 30⟩ b)

/-- Embeds groupKeyForAgeOnJune30 (page.tsx lines 129-134): null age falls
back to the middle bucket; otherwise ages up to 5 are KINDY_PREPRIMARY, up
to 8 are YEARS_1_3, and the rest YEARS_4_6. -/
def groupKeyForAgeOnJune30 (ageYears : Option Int) : GroupKey :=
  match ageYears with
  | none => .YEARS_1_3
  | some a =>
      if a ≤ 5 then .KINDY_PREPRIMARY
      else if a ≤ 8 then .YEARS_1_3
      else .YEARS_4_6

/-- The specification formulation of whole years of age at a cutoff (spec
section 4.1): the full year difference when the birthday (month, day) has
occurred by the cutoff (month, day), one less otherwise. Stated from the
spec wording for comparison with ageAtCutoff. -/
def specWholeYears (cutoff dob : Ymd) : Int :=
  if dob.m < cutoff.m ∨ (dob.m = cutoff.m ∧ dob.d ≤ cutoff.d) then
    cutoff.y - dob.y
  else
    cutoff.y - dob.y - 1

/-!
A calendar day is modelled as an Int counting whole days from 1970-01-01:
the value a JS Date normalised to local midnight denotes, at day
granularity.
-/

/-- JS Date.getDay: 0 is Sunday. Day 0 (1970-01-01) was a Thursday, hence
the offset 4. -/
def dayOfWeek (n : Int) : Int := (n + 4) % 7

/-- Embeds addDays (page.tsx lines 100-102): new Date(y, m, d + days)
normalises to the date the given number of days later. -/
def addDays (n : Int) (days : Int) : Int := n + days

/-- Embeds nextOrSameSunday (page.tsx lines 93-98): add (7 - getDay()) % 7
days to the start of the given day. -/
def nextOrSameSunday (n : Int) : Int :=
  let day := dayOfWeek n
  let add := (7 - day) % 7
  addDays n add

/-- Direction argument of stepSunday (page.tsx line 308). -/
inductive StepDir where
  | prev
  | next
deriving DecidableEq, Repr

/-- Embeds stepSunday (page.tsx lines 308-311): delta is -7 for prev and 7
for next, applied with addDays to the selected service Sunday. -/
def stepSunday (dir : StepDir) (n : Int) : Int :=
  let delta : Int := match dir with | .prev => -7 | .next => 7
  addDays n delta

/-- Day number (days since 1970-01-01) of a civil date, by the standard
Gregorian conversion; used to name concrete calendar dates such as
2025-06-08. -/
def daysFromCivil (y m d : Int) : Int :=
  let yy := if m ≤ 2 then y - 1 else y
  let era := yy / 400
  let yoe := yy - era * 400
  let mp := (m + 9) % 12
  let doy := (153 * mp + 2) / 5 + d - 1
  let doe := yoe * 365 + yoe / 4 - yoe / 100 + doy
  era * 146097 + doe - 719468

/-- Joined child display fields (page.tsx type JoinedChildObject, lines
62-66). -/
structure JoinedChildObject where
  id : String
  first_name : String
  last_name : String
deriving DecidableEq, Repr

/-- The shape a joined child arrives in from the store: absent, a single
object, or a list (page.tsx lines 68-74 normalise this ambiguity). -/
inductive JoinedChildInput where
  | absent
  | one (c : JoinedChildObject)
  | many (cs : List JoinedChildObject)
deriving DecidableEq, Repr

/-- Embeds normalizeJoinedChild (page.tsx lines 68-74): null stays null, an
array is kept as is, a single object is wrapped in a one-element list. -/
def normalizeJoinedChild : JoinedChildInput → Option (List JoinedChildObject)
  | .absent => none
  | .one c => some [c]
  | .many cs => some cs

/-- A fetched attendance row (page.tsx type CheckedInRow, lines 33-44), as
assembled by loadToday from the store query for the selected service date;
group_key is the column stored at check-in time. -/
structure CheckedInRow where
  attendance_id : String
  child_id : String
  group_key : GroupKey
  check_in_time : String
  check_out_time : Option String
  children : Option (List JoinedChildObject)
deriving DecidableEq, Repr

/-- Embeds grouped (page.tsx lines 618-626): fold the fetched rows into the
three bucket lists, pushing each row onto the list named by its stored
group_key; nothing is recomputed from a date of birth. -/
def grouped (checkedIn : List CheckedInRow) : GroupKey → List CheckedInRow :=
  checkedIn.foldl
    (fun out r => fun g => if g = r.group_key then out g ++ [r] else out g)
    (fun _ => [])

/-- Embeds the roster row name (page.tsx lines 748-752): the joined child's
first and last name when the normalised join is non-empty, otherwise the
explicit Unknown child placeholder. -/
def rosterName (row : CheckedInRow) : String :=
  match row.children with
  | some (c :: _) => c.first_name ++ " " ++ c.last_name
  | _ => "Unknown child"

/-- The action rendered on a roster row (page.tsx lines 761-773). -/
inductive RosterAction where
  | checkedOutBadge
  | checkOutButton
deriving DecidableEq, Repr

/-- Embeds the roster row action choice (page.tsx lines 740 and 761-773):
isCheckedOut is the JS truthiness of check_out_time (null and the empty
string are falsy); a checked-out row renders a static badge, an open row a
check-out button invoking openCheckout. -/
def rosterAction (row : CheckedInRow) : RosterAction :=
  match row.check_out_time with
  | some t => if t = "" then .checkOutButton else .checkedOutBadge
  | none => .checkOutButton

/-- An attendance table row, with the columns completeCheckIn inserts
(page.tsx lines 479-485) and completeCheckOut updates (lines 595-601). -/
structure AttendanceRecord where
  id : String
  child_id : String
  service_date : String
  group_key : GroupKey
  check_in_time : String
  checked_in_by_guardian_id : String
  check_out_time : Option String
  checked_out_by_guardian_id : Option String
deriving DecidableEq, Repr

/-- A store error as supabase-js surfaces it: code, message and details. -/
structure DbError where
  code : Option String
  message : Option String
  details : Option String
deriving DecidableEq, Repr

/-- Modelled from the spec: the unique-key violation a Postgres-backed store
reports (SQLSTATE 23505); the schema holding the constraint is not under
src. -/
def dupKeyError : DbError :=
  ⟨some "23505", some "duplicate key value violates unique constraint", none⟩

/-- A child row as the check-in search returns it (page.tsx type ChildRow,
lines 13-19), with the date of birth held as a parsed calendar date. -/
structure ChildRow where
  id : String
  first_name : String
  last_name : String
  dob : Option Ymd
  active : Option Bool
deriving DecidableEq, Repr

/-- Modelled from the spec: insert into the attendance store guarded by the
uniqueness constraint on (child id, service date) that spec sections 4.4
and 5 require the store to enforce as the authoritative guard (the Supabase
schema is not under src); an insert for a pair that already has a record,
open or closed, reports a unique violation and stores nothing; otherwise
the row is appended. -/
def attendanceInsert (table : List AttendanceRecord) (r : AttendanceRecord) :
    Except DbError (List AttendanceRecord) :=
  if ∃ x ∈ table, x.child_id = r.child_id ∧ x.service_date = r.service_date then
    .error dupKeyError
  else
    .ok (table ++ [r])

/-- Embeds completeCheckIn (page.tsx lines 463-502): the age bucket is
computed from the selected child's date of birth at the June-30 cutoff and
frozen into the inserted row, together with the currently navigated service
date, the check-in instant and the selected guardian; a store error leaves
the table untouched and is surfaced to the caller as checkInError. -/
def completeCheckIn (table : List AttendanceRecord) (currentYear : Int)
    (selectedChild : ChildRow) (serviceDateISO : String) (nowIso : String)
    (guardianId : String) (newId : String) : Except DbError (List AttendanceRecord) :=
  let age := ageOnJune30ThisYear currentYear selectedChild.dob
  let group_key := groupKeyForAgeOnJune30 age
  attendanceInsert table
    ⟨newId, selectedChild.id, serviceDateISO, group_key, nowIso, guardianId, none, none⟩

/-- The attendance records stored for a (child, service date) pair. -/
def recordsFor (table : List AttendanceRecord) (childId serviceDate : String) :
    List AttendanceRecord :=
  table.filter (fun r => decide (r.child_id = childId ∧ r.service_date = serviceDate))

/-- Embeds the completeCheckOut store update (page.tsx lines 595-601): set
check_out_time to the checkout instant and checked_out_by_guardian_id to
the selected pickup guardian on every row whose id equals the target
attendance id; the update is filtered by id only, with no condition on the
current check_out_time. -/
def completeCheckOut (table : List AttendanceRecord) (targetAttendanceId : String)
    (nowIso : String) (pickupGuardianId : String) : List AttendanceRecord :=
  table.map (fun r =>
    if r.id = targetAttendanceId then
      ⟨r.id, r.child_id, r.service_date, r.group_key, r.check_in_time,
        r.checked_in_by_guardian_id, some nowIso, some pickupGuardianId⟩
    else r)

/-- A guardian row as the app reads it (page.tsx type GuardianRow, lines
21-29). -/
structure GuardianRow where
  id : String
  first_name : Option String
  last_name : Option String
  full_name : Option String
  relationship : Option String
  phone : Option String
  active : Option Bool
deriving DecidableEq, Repr

/-- A child_guardians link row: the columns the link helpers write
(page.tsx lines 438-442) and loadGuardiansForChild reads (lines 384-394),
with the per-link relationship column the CreateGuardianInline note
describes. -/
structure ChildGuardianLink where
  child_id : String
  guardian_id : Option String
  relationship : Option String
  active : Option Bool
deriving DecidableEq, Repr

/-- The JS truthiness filter on the collected guardian_id column (page.tsx
lines 392-394): keep ids that are neither null nor the empty string. -/
def truthyIds (links : List ChildGuardianLink) : List String :=
  (links.map (fun l => l.guardian_id)).filterMap (fun o =>
    match o with
    | some s => if s = "" then none else some s
    | none => none)

/-- The seen-set de-duplication loop shared by loadGuardiansForChild and
loadCheckoutGuardiansForChild (page.tsx lines 410-416 and 541-547): keep
the first row for each guardian id not yet seen. -/
def dedupById : List GuardianRow → List String → List GuardianRow
  | [], _ => []
  | g :: rest, seen =>
      if g.id ∈ seen then dedupById rest seen
      else g :: dedupById rest (g.id :: seen)

/-- Embeds loadGuardiansForChild (page.tsx lines 373-425); the textually
identical loadCheckoutGuardiansForChild (lines 504-556) computes the same
list. The store queries are modelled as list filters: link rows for the
child with active = true; when no non-null ids remain the result is empty;
otherwise the guardians whose id is among the collected ids, filtered by
active !== false, de-duplicated by id. -/
def loadGuardiansForChild (links : List ChildGuardianLink)
    (guardians : List GuardianRow) (childId : String) : List GuardianRow :=
  let activeLinks :=
    links.filter (fun l => decide (l.child_id = childId ∧ l.active = some true))
  let ids := truthyIds activeLinks
  if ids = [] then []
  else
    let gs := guardians.filter (fun g => decide (g.id ∈ ids))
    let list := gs.filter (fun g => decide (g.active ≠ some false))
    dedupById list []

/-- Embeds linkGuardianToChild (page.tsx lines 435-445): a plain insert of
a new active link row, with no existence check and no relationship. -/
def linkGuardianToChild (table : List ChildGuardianLink)
    (childId guardianId : String) : List ChildGuardianLink :=
  table ++ [⟨childId, some guardianId, none, some true⟩]

/-- The error PostgREST reports when a maybeSingle query finds more than
one row (code PGRST116); supabase-js surfaces it and EditChildModal's
linkGuardian throws on it. -/
def multipleRowsError : DbError :=
  ⟨some "PGRST116",
    some "JSON object requested, multiple (or no) rows returned", none⟩

/-- Embeds EditChildModal.linkGuardian (EditChildModal.tsx lines 242-286):
the existence probe selects the rows for the (child, guardian) pair with
maybeSingle, which errors with PGRST116 when more than one row matches —
the helper then throws and updates nothing. With exactly one existing row
it updates active = true on the rows matching the pair; with no existing
row it inserts a new active row. -/
def linkGuardian (table : List ChildGuardianLink)
    (childId guardianId : String) : Except DbError (List ChildGuardianLink) :=
  match table.filter
      (fun l => decide (l.child_id = childId ∧ l.guardian_id = some guardianId)) with
  | [] => .ok (table ++ [⟨childId, some guardianId, none, some true⟩])
  | [_] => .ok (table.map (fun l =>
      if l.child_id = childId ∧ l.guardian_id = some guardianId then
        ⟨l.child_id, l.guardian_id, l.relationship, some true⟩
      else l))
  | _ => .error multipleRowsError

/-- Approval channel (CreateGuardianInline.tsx line 20). -/
inductive ApprovalMethod where
  | call
  | sms
  | in_person
deriving DecidableEq, Repr

/-- The inline create-guardian form state (CreateGuardianInline.tsx lines
15-21). -/
structure NewGuardianState where
  first_name : String
  last_name : String
  phone : String
  approved_by_name : String
  approved_by_method : ApprovalMethod
deriving DecidableEq, Repr

/-- The payload handleCreate inserts (CreateGuardianInline.tsx lines
108-116). -/
structure GuardianInsertPayload where
  first_name : String
  last_name : Option String
  phone : Option String
  approved_by_name : Option String
  approved_by_method : ApprovalMethod
  approved_at : String
  active : Bool
deriving DecidableEq, Repr

/-- Character-list substring search: the semantics of JS
String.prototype.includes. -/
def charsContain (needle : List Char) : List Char → Bool
  | [] => decide (needle = [])
  | c :: rest => needle.isPrefixOf (c :: rest) || charsContain needle rest

/-- JS hay.includes(needle) on Lean strings. -/
def strIncludes (hay needle : String) : Bool := charsContain needle.data hay.data

/-- Embeds isDuplicateConstraint (CreateGuardianInline.tsx lines 41-46):
code 23505, or a lowercased message-plus-details text containing both
duplicate and unique. -/
def isDuplicateConstraint (e : DbError) : Bool :=
  if e.code = some "23505" then true
  else
    let msg := ((e.message.getD "") ++ " " ++ (e.details.getD "")).toLower
    strIncludes msg "duplicate" && strIncludes msg "unique"

/-- Modelled from the spec: insert into the guardians store guarded by the
uniqueness invariant of spec section 3 (no two active guardians share the
same first name, last name and phone triple); the Supabase constraint
enforcing it is not under src. A colliding insert reports a unique
violation and stores nothing; otherwise the row is stored under a fresh
id. -/
def guardiansInsert (table : List (String × GuardianInsertPayload))
    (newId : String) (p : GuardianInsertPayload) :
    Except DbError (List (String × GuardianInsertPayload)) :=
  if ∃ g ∈ table, g.2.active = true ∧ g.2.first_name = p.first_name ∧
      g.2.last_name = p.last_name ∧ g.2.phone = p.phone then
    .error dupKeyError
  else
    .ok (table ++ [(newId, p)])

/-- Outcome of the inline guardian creation (CreateGuardianInline.tsx
handleCreate, lines 87-140): one of the two local validation stops, the
created row, the distinguished duplicate message, or the generic failure
carrying the store error. -/
inductive CreateGuardianOutcome where
  | missingFirstName
  | missingPhone
  | created (id : String)
  | duplicateGuardian
  | otherFailure (e : DbError)
deriving DecidableEq, Repr

/-- JS String.prototype.trim at the character-list level: drop whitespace
from both ends. Structural recursion, so concrete instances evaluate. -/
def strTrim (s : String) : String :=
  ⟨((s.data.dropWhile Char.isWhitespace).reverse.dropWhile Char.isWhitespace).reverse⟩

/-- Embeds handleCreate (CreateGuardianInline.tsx lines 87-140) against the
modelled store: require a non-empty trimmed first name and phone, insert
the trimmed payload (empty optional fields as null, active true), and
classify an insert error through isDuplicateConstraint into the
distinguished duplicate outcome; on any error the store is unchanged. -/
def handleCreate (table : List (String × GuardianInsertPayload)) (newId : String)
    (form : NewGuardianState) (nowIso : String) :
    CreateGuardianOutcome × List (String × GuardianInsertPayload) :=
  if strTrim form.first_name = "" then (.missingFirstName, table)
  else if strTrim form.phone = "" then (.missingPhone, table)
  else
    let payload : GuardianInsertPayload :=
      ⟨strTrim form.first_name,
        if strTrim form.last_name = "" then none else some (strTrim form.last_name),
        if strTrim form.phone = "" then none else some (strTrim form.phone),
        if strTrim form.approved_by_name = "" then none else some (strTrim form.approved_by_name),
        form.approved_by_method, nowIso, true⟩
    match guardiansInsert table newId payload with
    | .ok t => (.created newId, t)
    | .error e =>
        if isDuplicateConstraint e then (.duplicateGuardian, table)
        else (.otherFailure e, table)

/-- State of the live search coordinator: one cancellation flag per effect
run launched so far (index = launch order; true means that closure's
cancelled flag has been set by its cleanup), and the committed search
results. -/
structure SearchCoordState where
  flags : List Bool
  results : List ChildRow
deriving DecidableEq, Repr

/-- Events of the search effect protocol: a new effect run starting (the
dependencies of the search effect changed), or the query launched by an
earlier run resolving with its data. -/
inductive SearchEv where
  | newRun
  | resolve (gen : Nat) (data : List ChildRow)

/-- One step of the search effect protocol (page.tsx lines 313-371): a new
run first executes the pending cleanups, which set every earlier closure's
cancelled flag (lines 368-370), and starts with its own flag false
(line 314); a resolving query checks the flag captured at launch and
commits setResults only while it is still false (lines 355-357). An
out-of-range generation is treated as cancelled. -/
def searchStep (s : SearchCoordState) : SearchEv → SearchCoordState
  | .newRun => ⟨s.flags.map (fun _ => true) ++ [false], s.results⟩
  | .resolve gen data =>
      if s.flags.getD gen true then s
      else ⟨s.flags, data⟩

/-- The coordinator state after a sequence of events, starting from no
launched runs and empty results. -/
def searchRun (evs : List SearchEv) : SearchCoordState :=
  evs.foldl searchStep ⟨[], []⟩

/-- One global single-character replacement, JS s.replace(/c/g, escape):
every occurrence of the character becomes a backslash followed by the
character; every other character is kept. -/
def escapeCharWith (c : Char) : List Char → List Char
  | [] => []
  | x :: rest =>
      if x = c then '\\' :: c :: escapeCharWith c rest
      else x :: escapeCharWith c rest

/-- Embeds the ilike pattern escaping shared by the child and guardian
searches (page.tsx lines 343-344, ManageModal.tsx lines 107-108 and
148-149, EditChildModal.tsx lines 209-210): every percent, then every
underscore, of the trimmed query is prefixed by a backslash. -/
def escapeLike (q : String) : String :=
  ⟨escapeCharWith '_' (escapeCharWith '%' q.data)⟩

/-- The pattern the searches send to the store (page.tsx line 344): percent,
escaped term, percent. -/
def likePattern (q : String) : String :=
  "%" ++ escapeLike q ++ "%"

/-- Single-pass formulation of the escaping, used to state its
characterisation: each wildcard character is emitted with a backslash
prefix, everything else verbatim. -/
def escapeWildcardChar (c : Char) : List Char :=
  if c = '%' ∨ c = '_' then ['\\', c] else [c]

/-- The single-pass escaping of a whole character list. -/
def escapeWildcards : List Char → List Char
  | [] => []
  | c :: rest => escapeWildcardChar c ++ escapeWildcards rest

/-- Check that every wildcard character carries an immediately preceding
backslash, carrying the previous character along. -/
def wildcardsEscapedAux : Option Char → List Char → Bool
  | _, [] => true
  | prev, x :: rest =>
      (decide ((x ≠ '%' ∧ x ≠ '_') ∨ prev = some '\\')) &&
        wildcardsEscapedAux (some x) rest

/-- Every percent and underscore in the string has a backslash immediately
before it. -/
def wildcardsEscaped (s : String) : Bool := wildcardsEscapedAux none s.data

/-! ## Theorems -/

/-- Helper: nextOrSameSunday with its local bindings unfolded. -/
theorem nextOrSameSunday_eq (n : Int) :
    nextOrSameSunday n = n + (7 - (n + 4) % 7) % 7 := rfl

/-- Helper: stepping a week in either direction does not change the weekday. -/
theorem dayOfWeek_stepSunday (dir : StepDir) (s : Int) :
    dayOfWeek (stepSunday dir s) = dayOfWeek s := by
  cases dir
  · show (s + (-7) + 4) % 7 = (s + 4) % 7
    omega
  · show (s + 7 + 4) % 7 = (s + 4) % 7
    omega

/-- Helper: a fold of stepSunday moves over days without leaving the weekday
of its start. -/
theorem dayOfWeek_foldl_stepSunday (dirs : List StepDir) (s : Int) :
    dayOfWeek (dirs.foldl (fun acc dir => stepSunday dir acc) s) = dayOfWeek s := by
  induction dirs generalizing s with
  | nil => rfl
  | cons dir rest ih =>
      simp only [List.foldl_cons]
      rw [ih, dayOfWeek_stepSunday]

/-- C9: the service-date navigator only ever selects Sundays: the initial
selection nextOrSameSunday lands on a Sunday within the following seven
days and is the same day when that day is already a Sunday; every sequence
of prev/next steps from it stays on a Sunday; and stepping next from
2025-06-08 yields 2025-06-15 while stepping prev yields 2025-06-01. -/
theorem c9_sunday_navigator :
    (∀ n : Int, dayOfWeek (nextOrSameSunday n) = 0 ∧
      n ≤ nextOrSameSunday n ∧ nextOrSameSunday n < n + 7 ∧
      (dayOfWeek n = 0 → nextOrSameSunday n = n)) ∧
    (∀ (dirs : List StepDir) (now : Int),
      dayOfWeek (dirs.foldl (fun acc dir => stepSunday dir acc) (nextOrSameSunday now)) = 0) ∧
    stepSunday StepDir.next (daysFromCivil 2025 6 8) = daysFromCivil 2025 6 15 ∧
    stepSunday StepDir.prev (daysFromCivil 2025 6 8) = daysFromCivil 2025 6 1 ∧
    dayOfWeek (daysFromCivil 2025 6 8) = 0 := by
  refine ⟨?_, ?_, by decide, by decide, by decide⟩
  · intro n
    rw [nextOrSameSunday_eq]
    simp only [dayOfWeek]
    refine ⟨by omega, by omega, by omega, ?_⟩
    intro h
    omega
  · intro dirs now
    rw [dayOfWeek_foldl_stepSunday, nextOrSameSunday_eq]
    simp only [dayOfWeek]
    omega

/-- C9 witness: 2025-06-08 is a Sunday, so the navigator initialised on it
selects that very day. -/
theorem c9_sunday_navigator_witness :
    nextOrSameSunday (daysFromCivil 2025 6 8) = daysFromCivil 2025 6 8 :=
  (c9_sunday_navigator.1 (daysFromCivil 2025 6 8)).2.2.2 (by decide)

/-- C3 counterexample: with cutoff 2025-06-30 a child born 2020-06-30 is
age 5, and the code places age 5 in the youngest bucket KINDY_PREPRIMARY,
not in the middle bucket YEARS_1_3 named by the claim. -/
theorem c3_age5_goes_to_youngest_bucket :
    ageOnJune30ThisYear 2025 (some ⟨2020, 6, 30⟩) = some 5 ∧
    groupKeyForAgeOnJune30 (ageOnJune30ThisYear 2025 (some ⟨2020, 6, 30⟩)) =
      GroupKey.KINDY_PREPRIMARY ∧
    GroupKey.KINDY_PREPRIMARY ≠ GroupKey.YEARS_1_3 := by
  decide

/-- C3 (amended): the classification computes whole years at the June-30
cutoff by the has-the-birthday-occurred rule (proved equal to the spec
formulation for every cutoff and birth date) and maps ages through fixed
inclusive thresholds: ages up to 5 fall in the youngest bucket, 6 to 8 in
the middle, 9 and up in the oldest, and a missing date of birth defaults to
the middle bucket. With cutoff 2025-06-30 a child born 2020-07-01 is age 4
and falls in the youngest bucket, and a child born 2020-06-30 is age 5 and
also falls in the youngest bucket (the youngest threshold is inclusive at
age 5). -/
theorem c3_age_bucket_classification :
    (∀ cutoff dob : Ymd, ageAtCutoff cutoff dob = specWholeYears cutoff dob) ∧
    (∀ a : Int, a ≤ 5 → groupKeyForAgeOnJune30 (some a) = GroupKey.KINDY_PREPRIMARY) ∧
    (∀ a : Int, 6 ≤ a → a ≤ 8 → groupKeyForAgeOnJune30 (some a) = GroupKey.YEARS_1_3) ∧
    (∀ a : Int, 9 ≤ a → groupKeyForAgeOnJune30 (some a) = GroupKey.YEARS_4_6) ∧
    groupKeyForAgeOnJune30 none = GroupKey.YEARS_1_3 ∧
    ageOnJune30ThisYear 2025 (some ⟨2020, 7, 1⟩) = some 4 ∧
    groupKeyForAgeOnJune30 (some 4) = GroupKey.KINDY_PREPRIMARY ∧
    ageOnJune30ThisYear 2025 (some ⟨2020, 6, 30⟩) = some 5 ∧
    groupKeyForAgeOnJune30 (some 5) = GroupKey.KINDY_PREPRIMARY := by
  refine ⟨?_, ?_, ?_, ?_, by decide, by decide, by decide, by decide, by decide⟩
  · intro cutoff dob
    simp only [ageAtCutoff, specWholeYears]
    split_ifs <;> omega
  · intro a h
    simp only [groupKeyForAgeOnJune30, if_pos h]
  · intro a h1 h2
    simp only [groupKeyForAgeOnJune30]
    rw [if_neg (by omega), if_pos h2]
  · intro a h
    simp only [groupKeyForAgeOnJune30]
    rw [if_neg (by omega), if_neg (by omega)]

/-- C3 witness: a child aged 7 at the cutoff is placed in the middle bucket,
by the inclusive-threshold part of the classification theorem. -/
theorem c3_age_bucket_classification_witness :
    groupKeyForAgeOnJune30 (some 7) = GroupKey.YEARS_1_3 :=
  c3_age_bucket_classification.2.2.1 7 (by decide) (by decide)

/-- Helper: the grouped fold is the filter of the fetched rows by stored
group key, generalised over the accumulator. -/
theorem grouped_foldl_eq (rows : List CheckedInRow)
    (acc : GroupKey → List CheckedInRow) (g : GroupKey) :
    (rows.foldl
      (fun out r => fun k => if k = r.group_key then out k ++ [r] else out k) acc) g =
      acc g ++ rows.filter (fun r => decide (r.group_key = g)) := by
  induction rows generalizing acc with
  | nil => simp
  | cons r rest ih =>
      simp only [List.foldl_cons, ih, List.filter_cons]
      by_cases h : g = r.group_key
      · simp [h, List.append_assoc]
      · simp [h, Ne.symm h]

/-- Helper: grouped as a filter by the stored group key. -/
theorem grouped_eq_filter (rows : List CheckedInRow) (g : GroupKey) :
    grouped rows g = rows.filter (fun r => decide (r.group_key = g)) := by
  simp [grouped, grouped_foldl_eq]

/-- C4: the assembled roster shows a row for every fetched attendance
record: the three bucket lists together have exactly as many rows as were
fetched, every record appears in the bucket list named by the group_key
stored on it at check-in time (and only there), and a record whose joined
child is missing or empty renders the explicit Unknown child placeholder
while a present join renders the child's name. -/
theorem c4_roster_shows_every_record :
    (∀ rows : List CheckedInRow,
      (grouped rows GroupKey.KINDY_PREPRIMARY).length +
        (grouped rows GroupKey.YEARS_1_3).length +
        (grouped rows GroupKey.YEARS_4_6).length = rows.length) ∧
    (∀ (rows : List CheckedInRow) (r : CheckedInRow),
      r ∈ rows → r ∈ grouped rows r.group_key) ∧
    (∀ (rows : List CheckedInRow) (g : GroupKey) (r : CheckedInRow),
      r ∈ grouped rows g → g = r.group_key ∧ r ∈ rows) ∧
    (∀ row : CheckedInRow, row.children = none ∨ row.children = some [] →
      rosterName row = "Unknown child") ∧
    (∀ (row : CheckedInRow) (c : JoinedChildObject) (cs : List JoinedChildObject),
      row.children = some (c :: cs) →
      rosterName row = c.first_name ++ " " ++ c.last_name) := by
  refine ⟨?_, ?_, ?_, ?_, ?_⟩
  · intro rows
    simp only [grouped_eq_filter]
    induction rows with
    | nil => rfl
    | cons r rest ih =>
        rcases hr : r.group_key <;> simp [List.filter_cons, hr] <;> omega
  · intro rows r hr
    rw [grouped_eq_filter]
    exact List.mem_filter.mpr ⟨hr, by simp⟩
  · intro rows g r hr
    rw [grouped_eq_filter] at hr
    have h := List.mem_filter.mp hr
    refine ⟨?_, h.1⟩
    have := h.2
    simp only [decide_eq_true_eq] at this
    exact this.symm
  · intro row h
    rcases h with h | h <;> simp [rosterName, h]
  · intro row c cs h
    simp [rosterName, h]

/-- C4 witness: a concrete fetched record with a missing joined child is
grouped under its stored bucket and rendered as the Unknown child
placeholder. -/
theorem c4_roster_shows_every_record_witness :
    (⟨"a1", "c1", GroupKey.YEARS_4_6, "t0", none, none⟩ : CheckedInRow) ∈
      grouped [⟨"a1", "c1", GroupKey.YEARS_4_6, "t0", none, none⟩] GroupKey.YEARS_4_6 ∧
    rosterName ⟨"a1", "c1", GroupKey.YEARS_4_6, "t0", none, none⟩ = "Unknown child" :=
  ⟨c4_roster_shows_every_record.2.1
      [⟨"a1", "c1", GroupKey.YEARS_4_6, "t0", none, none⟩]
      ⟨"a1", "c1", GroupKey.YEARS_4_6, "t0", none, none⟩ (by decide),
    c4_roster_shows_every_record.2.2.2.1
      ⟨"a1", "c1", GroupKey.YEARS_4_6, "t0", none, none⟩ (Or.inl rfl)⟩

/-- C1: with the store-level uniqueness guard on (child, service date) the
spec requires, a check-in attempt for a child who already has an attendance
record, open or closed, for the selected service date rejects with the
unique-violation conflict; and whenever a check-in succeeds, no record for
the pair existed before and exactly one exists afterwards, so a second
record for the pair is never created. -/
theorem c1_checkin_conflict_no_second_record :
    ∀ (table : List AttendanceRecord) (currentYear : Int) (child : ChildRow)
      (d now gid newId : String),
      ((∃ r ∈ table, r.child_id = child.id ∧ r.service_date = d) →
        completeCheckIn table currentYear child d now gid newId =
          Except.error dupKeyError) ∧
      (∀ t : List AttendanceRecord,
        completeCheckIn table currentYear child d now gid newId = Except.ok t →
          recordsFor table child.id d = [] ∧ (recordsFor t child.id d).length = 1) := by
  intro table currentYear child d now gid newId
  constructor
  · intro hex
    simp only [completeCheckIn, attendanceInsert]
    rw [if_pos hex]
  · intro t ht
    simp only [completeCheckIn, attendanceInsert] at ht
    by_cases hex : ∃ x ∈ table, x.child_id = child.id ∧ x.service_date = d
    · rw [if_pos hex] at ht
      exact absurd ht (by simp)
    · rw [if_neg hex] at ht
      have htab : t = table ++
          [⟨newId, child.id, d,
            groupKeyForAgeOnJune30 (ageOnJune30ThisYear currentYear child.dob),
            now, gid, none, none⟩] := by
        cases ht
        rfl
      have hnil : recordsFor table child.id d = [] := by
        simp only [recordsFor, List.filter_eq_nil_iff, decide_eq_true_eq]
        intro a ha hcontra
        exact hex ⟨a, ha, hcontra⟩
      refine ⟨hnil, ?_⟩
      rw [htab]
      simp only [recordsFor] at hnil ⊢
      rw [List.filter_append, hnil]
      simp

/-- C1 witness: a concrete second check-in of the same child on the same
service date is rejected with the conflict error. -/
theorem c1_checkin_conflict_witness :
    completeCheckIn
        [⟨"a1", "c1", "2025-06-08", GroupKey.KINDY_PREPRIMARY, "t0", "g1", none, none⟩]
        2025 ⟨"c1", "Zoe", "Lee", some ⟨2020, 7, 1⟩, some true⟩
        "2025-06-08" "t9" "g1" "a2" = Except.error dupKeyError :=
  (c1_checkin_conflict_no_second_record
      [⟨"a1", "c1", "2025-06-08", GroupKey.KINDY_PREPRIMARY, "t0", "g1", none, none⟩]
      2025 ⟨"c1", "Zoe", "Lee", some ⟨2020, 7, 1⟩, some true⟩
      "2025-06-08" "t9" "g1" "a2").1
    ⟨⟨"a1", "c1", "2025-06-08", GroupKey.KINDY_PREPRIMARY, "t0", "g1", none, none⟩,
      by decide, rfl, rfl⟩

/-- C2 counterexample: invoking the checkout update on a record whose
check-out time is already set to t1 changes it to t2 and replaces the
check-out guardian, because the update is filtered by record id only; the
claimed never-changes-after-set property fails. -/
theorem c2_second_checkout_overwrites :
    completeCheckOut
        [⟨"a1", "c1", "2025-06-08", GroupKey.KINDY_PREPRIMARY, "t0", "g1",
          some "t1", some "g1"⟩]
        "a1" "t2" "g2" =
      [⟨"a1", "c1", "2025-06-08", GroupKey.KINDY_PREPRIMARY, "t0", "g1",
        some "t2", some "g2"⟩] ∧
    some "t2" ≠ some "t1" := by
  decide

/-- C2 (amended): the checkout update applies unconditionally to the record
with the target attendance id: its check-out time and guardian are set to
the new values regardless of whether they were already set (the update is
filtered by id only, not by a null check-out time), while every other
record is untouched; the double-checkout protection lives in the roster
rendering, which offers the check-out action exactly for rows whose
check-out time is unset (null, or the empty string which JS truthiness
treats as unset) and shows a static badge otherwise. -/
theorem c2_checkout_update_unconditional :
    (∀ (table : List AttendanceRecord) (targetId now gid : String)
      (r : AttendanceRecord), r ∈ table → r.id = targetId →
        (⟨r.id, r.child_id, r.service_date, r.group_key, r.check_in_time,
          r.checked_in_by_guardian_id, some now, some gid⟩ : AttendanceRecord) ∈
          completeCheckOut table targetId now gid) ∧
    (∀ (table : List AttendanceRecord) (targetId now gid : String)
      (r : AttendanceRecord), r ∈ table → r.id ≠ targetId →
        r ∈ completeCheckOut table targetId now gid) ∧
    (∀ row : CheckedInRow, rosterAction row = RosterAction.checkOutButton ↔
      (row.check_out_time = none ∨ row.check_out_time = some "")) := by
  refine ⟨?_, ?_, ?_⟩
  · intro table targetId now gid r hmem hid
    simp only [completeCheckOut]
    exact List.mem_map.mpr ⟨r, hmem, by simp [hid]⟩
  · intro table targetId now gid r hmem hid
    simp only [completeCheckOut]
    exact List.mem_map.mpr ⟨r, hmem, by simp [hid]⟩
  · intro row
    rcases h : row.check_out_time with _ | t
    · simp [rosterAction, h]
    · by_cases ht : t = ""
      · simp [rosterAction, h, ht]
      · simp [rosterAction, h, if_neg ht, ht]

/-- C2 witness: a concrete open record gains the new check-out time and
guardian when its id is targeted. -/
theorem c2_checkout_update_witness :
    (⟨"a1", "c1", "2025-06-08", GroupKey.KINDY_PREPRIMARY, "t0", "g1",
      some "t9", some "g2"⟩ : AttendanceRecord) ∈
      completeCheckOut
        [⟨"a1", "c1", "2025-06-08", GroupKey.KINDY_PREPRIMARY, "t0", "g1", none, none⟩]
        "a1" "t9" "g2" :=
  c2_checkout_update_unconditional.1
    [⟨"a1", "c1", "2025-06-08", GroupKey.KINDY_PREPRIMARY, "t0", "g1", none, none⟩]
    "a1" "t9" "g2"
    ⟨"a1", "c1", "2025-06-08", GroupKey.KINDY_PREPRIMARY, "t0", "g1", none, none⟩
    (by decide) rfl

/-- C5 counterexample: with a single deactivated link row for the pair
already stored, the Today-page helper linkGuardianToChild inserts a second
row for the pair and leaves the existing row inactive, rather than
reactivating it. -/
theorem c5_todaypage_link_inserts_duplicate :
    linkGuardianToChild [⟨"c1", some "g1", none, some false⟩] "c1" "g1" =
      [⟨"c1", some "g1", none, some false⟩, ⟨"c1", some "g1", none, some true⟩] ∧
    (linkGuardianToChild [⟨"c1", some "g1", none, some false⟩] "c1" "g1").length = 2 ∧
    (⟨"c1", some "g1", none, some false⟩ : ChildGuardianLink) ∈
      linkGuardianToChild [⟨"c1", some "g1", none, some false⟩] "c1" "g1" := by
  decide

/-- C5 (amended): the Today page's linkGuardianToChild always appends a new
active link row, growing the table by one, with no reactivation (it is only
invoked for freshly created guardians); EditChildModal's linkGuardian is
idempotent only for a pair with exactly one existing row, active or
inactive: it then keeps the table length and sets active = true on the
row(s) of the pair; for a pair with no existing row it inserts a new active
link; and for a pair that already has two or more rows (a state reachable
through linkGuardianToChild's duplicate inserts) its maybeSingle probe
errors with PGRST116 and nothing is updated. Neither helper writes a
relationship. -/
theorem c5_link_reactivation_in_edit_modal :
    (∀ (table : List ChildGuardianLink) (c g : String),
      linkGuardianToChild table c g = table ++ [⟨c, some g, none, some true⟩] ∧
      (linkGuardianToChild table c g).length = table.length + 1) ∧
    (∀ (table : List ChildGuardianLink) (c g : String),
      (table.filter
        (fun l => decide (l.child_id = c ∧ l.guardian_id = some g))).length = 1 →
        ∃ t : List ChildGuardianLink, linkGuardian table c g = Except.ok t ∧
          t.length = table.length ∧
          ∀ l ∈ t, l.child_id = c → l.guardian_id = some g →
            l.active = some true) ∧
    (∀ (table : List ChildGuardianLink) (c g : String),
      (¬∃ l ∈ table, l.child_id = c ∧ l.guardian_id = some g) →
        linkGuardian table c g =
          Except.ok (table ++ [⟨c, some g, none, some true⟩])) ∧
    (∀ (table : List ChildGuardianLink) (c g : String),
      2 ≤ (table.filter
        (fun l => decide (l.child_id = c ∧ l.guardian_id = some g))).length →
        linkGuardian table c g = Except.error multipleRowsError) := by
  refine ⟨?_, ?_, ?_, ?_⟩
  · intro table c g
    exact ⟨rfl, by simp [linkGuardianToChild]⟩
  · intro table c g hone
    rcases List.length_eq_one.mp hone with ⟨a, ha⟩
    simp only [linkGuardian]
    rw [ha]
    refine ⟨_, rfl, List.length_map _ _, ?_⟩
    intro l hl hc hg
    rcases List.mem_map.mp hl with ⟨b, hb, hfb⟩
    by_cases hcond : b.child_id = c ∧ b.guardian_id = some g
    · rw [if_pos hcond] at hfb
      rw [← hfb]
    · rw [if_neg hcond] at hfb
      subst hfb
      exact absurd ⟨hc, hg⟩ hcond
  · intro table c g hex
    have hnil : table.filter
        (fun l => decide (l.child_id = c ∧ l.guardian_id = some g)) = [] := by
      simp only [List.filter_eq_nil_iff, decide_eq_true_eq]
      intro l hl hcontra
      exact hex ⟨l, hl, hcontra⟩
    simp only [linkGuardian]
    rw [hnil]
  · intro table c g htwo
    rcases hf : table.filter
        (fun l => decide (l.child_id = c ∧ l.guardian_id = some g)) with _ | ⟨a, _ | ⟨b, rest⟩⟩
    · rw [hf] at htwo
      simp at htwo
    · rw [hf] at htwo
      simp at htwo
    · simp only [linkGuardian]
      rw [hf]

/-- C5 witness: a pair whose only row is inactive is reactivated in place
(one row stays one row, set active), while a pair that already has two
rows makes linkGuardian fail with the multiple-rows error. -/
theorem c5_link_reactivation_witness :
    (∃ t : List ChildGuardianLink,
      linkGuardian [⟨"c1", some "g1", none, some false⟩] "c1" "g1" =
        Except.ok t ∧
      t.length = 1 ∧
      ∀ l ∈ t, l.child_id = "c1" → l.guardian_id = some "g1" →
        l.active = some true) ∧
    linkGuardian
        [⟨"c1", some "g1", none, some false⟩, ⟨"c1", some "g1", none, some true⟩]
        "c1" "g1" = Except.error multipleRowsError :=
  ⟨c5_link_reactivation_in_edit_modal.2.1 [⟨"c1", some "g1", none, some false⟩]
      "c1" "g1" (by decide),
    c5_link_reactivation_in_edit_modal.2.2.2
      [⟨"c1", some "g1", none, some false⟩, ⟨"c1", some "g1", none, some true⟩]
      "c1" "g1" (by decide)⟩

/-- C6: a guardian-creation attempt whose trimmed (first name, last name,
phone) triple collides with a stored active guardian yields the
distinguished duplicate outcome and leaves the store unchanged; in the
concrete scenario, creating Ana Lee with phone 0400111222 succeeds and a
second identical attempt returns the duplicate outcome with still exactly
one stored row. -/
theorem c6_duplicate_guardian_distinguished :
    (∀ (table : List (String × GuardianInsertPayload)) (newId : String)
      (form : NewGuardianState) (nowIso : String),
      strTrim form.first_name ≠ "" → strTrim form.phone ≠ "" →
      (∃ g ∈ table, g.2.active = true ∧ g.2.first_name = strTrim form.first_name ∧
        g.2.last_name =
          (if strTrim form.last_name = "" then none else some (strTrim form.last_name)) ∧
        g.2.phone = some (strTrim form.phone)) →
      handleCreate table newId form nowIso =
        (CreateGuardianOutcome.duplicateGuardian, table)) ∧
    handleCreate [] "id1" ⟨"Ana", "Lee", "0400111222", "", ApprovalMethod.in_person⟩ "t1" =
      (CreateGuardianOutcome.created "id1",
        [("id1", ⟨"Ana", some "Lee", some "0400111222", none,
          ApprovalMethod.in_person, "t1", true⟩)]) ∧
    handleCreate
        [("id1", ⟨"Ana", some "Lee", some "0400111222", none,
          ApprovalMethod.in_person, "t1", true⟩)]
        "id2" ⟨"Ana", "Lee", "0400111222", "", ApprovalMethod.in_person⟩ "t2" =
      (CreateGuardianOutcome.duplicateGuardian,
        [("id1", ⟨"Ana", some "Lee", some "0400111222", none,
          ApprovalMethod.in_person, "t1", true⟩)]) := by
  refine ⟨?_, by decide, by decide⟩
  intro table newId form nowIso h1 h2 hex
  simp only [handleCreate, guardiansInsert, if_neg h1, if_neg h2]
  rcases hex with ⟨g, hg, ha, hf, hl, hp⟩
  rw [if_pos ⟨g, hg, ha, hf, hl, hp⟩]
  rfl

/-- C6 witness: the universal duplicate case applied to the concrete Ana
Lee store. -/
theorem c6_duplicate_guardian_witness :
    handleCreate
        [("idA", ⟨"Ana", some "Lee", some "0400111222", none,
          ApprovalMethod.in_person, "tA", true⟩)]
        "idB" ⟨" Ana ", "Lee", "0400111222", "Sam", ApprovalMethod.sms⟩ "tB" =
      (CreateGuardianOutcome.duplicateGuardian,
        [("idA", ⟨"Ana", some "Lee", some "0400111222", none,
          ApprovalMethod.in_person, "tA", true⟩)]) :=
  c6_duplicate_guardian_distinguished.1
    [("idA", ⟨"Ana", some "Lee", some "0400111222", none,
      ApprovalMethod.in_person, "tA", true⟩)]
    "idB" ⟨" Ana ", "Lee", "0400111222", "Sam", ApprovalMethod.sms⟩ "tB"
    (by decide) (by decide)
    ⟨("idA", ⟨"Ana", some "Lee", some "0400111222", none,
      ApprovalMethod.in_person, "tA", true⟩), by decide, rfl, by decide, by decide, by decide⟩

/-- Helper: an id produced by the truthiness filter comes from the
guardian_id of one of the link rows. -/
theorem mem_truthyIds {ls : List ChildGuardianLink} {s : String}
    (h : s ∈ truthyIds ls) : ∃ l ∈ ls, l.guardian_id = some s := by
  simp only [truthyIds, List.mem_filterMap, List.mem_map] at h
  rcases h with ⟨o, ⟨l, hl, ho⟩, hh⟩
  cases o with
  | none => simp at hh
  | some s' =>
      by_cases hs : s' = ""
      · dsimp at hh
        rw [if_pos hs] at hh
        exact absurd hh (by simp)
      · dsimp at hh
        rw [if_neg hs] at hh
        have := Option.some.inj hh
        subst this
        exact ⟨l, hl, ho⟩

/-- Helper: de-duplication only keeps rows of its input. -/
theorem dedupById_mem {l : List GuardianRow} {seen : List String}
    {g : GuardianRow} (h : g ∈ dedupById l seen) : g ∈ l := by
  induction l generalizing seen with
  | nil => simp [dedupById] at h
  | cons a rest ih =>
      simp only [dedupById] at h
      by_cases ha : a.id ∈ seen
      · rw [if_pos ha] at h
        exact List.mem_cons_of_mem _ (ih h)
      · rw [if_neg ha] at h
        rcases List.mem_cons.mp h with h1 | h2
        · exact h1 ▸ List.mem_cons_self _ _
        · exact List.mem_cons_of_mem _ (ih h2)

/-- Helper: the ids surviving de-duplication are distinct and disjoint from
the seen set. -/
theorem dedupById_nodup (l : List GuardianRow) (seen : List String) :
    ((dedupById l seen).map (fun g => g.id)).Nodup ∧
    ∀ g ∈ dedupById l seen, g.id ∉ seen := by
  induction l generalizing seen with
  | nil => simp [dedupById]
  | cons a rest ih =>
      simp only [dedupById]
      by_cases ha : a.id ∈ seen
      · rw [if_pos ha]
        exact ih seen
      · rw [if_neg ha]
        have h2 := ih (a.id :: seen)
        constructor
        · simp only [List.map_cons, List.nodup_cons]
          constructor
          · intro hc
            rcases List.mem_map.mp hc with ⟨g, hg, hid⟩
            exact h2.2 g hg (hid ▸ List.mem_cons_self _ _)
          · exact h2.1
        · intro g hg
          rcases List.mem_cons.mp hg with h1 | h1
          · subst h1
            exact ha
          · intro hin
            exact h2.2 g h1 (List.mem_cons_of_mem _ hin)

/-- C7 counterexample: a guardian whose active flag is null (neither true
nor false) is returned by the active-guardian lookup, because the filter
only excludes active === false; the claim that the list is filtered to
guardians whose active flag is true fails. -/
theorem c7_null_active_guardian_returned :
    loadGuardiansForChild [⟨"c1", some "g1", none, some true⟩]
        [⟨"g1", none, none, none, none, none, none⟩] "c1" =
      [⟨"g1", none, none, none, none, none, none⟩] ∧
    (⟨"g1", none, none, none, none, none, none⟩ : GuardianRow).active ≠ some true := by
  decide

/-- C7 (amended): every guardian the lookup returns has an active flag
other than false (null is treated as active and kept), is a stored
guardian row, and is reachable through a link row for the child that is
itself active with a non-null guardian id; and the returned list carries
no duplicate guardian ids. -/
theorem c7_active_guardians_filtered :
    ∀ (links : List ChildGuardianLink) (guardians : List GuardianRow)
      (childId : String),
      (∀ g ∈ loadGuardiansForChild links guardians childId,
        g.active ≠ some false ∧ g ∈ guardians ∧
        ∃ l ∈ links, l.child_id = childId ∧ l.active = some true ∧
          l.guardian_id = some g.id) ∧
      ((loadGuardiansForChild links guardians childId).map (fun g => g.id)).Nodup := by
  intro links guardians childId
  simp only [loadGuardiansForChild]
  by_cases hids :
      truthyIds (links.filter
        (fun l => decide (l.child_id = childId ∧ l.active = some true))) = []
  · rw [if_pos hids]
    exact ⟨by intro g hg; simp at hg, by simp⟩
  · rw [if_neg hids]
    constructor
    · intro g hg
      have hmem := dedupById_mem hg
      have h1 := List.mem_filter.mp hmem
      have h2 := List.mem_filter.mp h1.1
      refine ⟨by simpa using h1.2, h2.1, ?_⟩
      have hid : g.id ∈ truthyIds (links.filter
          (fun l => decide (l.child_id = childId ∧ l.active = some true))) := by
        simpa using h2.2
      rcases mem_truthyIds hid with ⟨l, hl, hgid⟩
      have hl2 := List.mem_filter.mp hl
      have hcond : l.child_id = childId ∧ l.active = some true := by
        simpa using hl2.2
      exact ⟨l, hl2.1, hcond.1, hcond.2, hgid⟩
    · exact (dedupById_nodup _ []).1

/-- C7 witness: a concretely linked active guardian comes back with an
active flag other than false. -/
theorem c7_active_guardians_filtered_witness :
    (⟨"g1", none, none, none, none, none, some true⟩ : GuardianRow).active ≠
      some false :=
  ((c7_active_guardians_filtered [⟨"c1", some "g1", none, some true⟩]
      [⟨"g1", none, none, none, none, none, some true⟩] "c1").1
    ⟨"g1", none, none, none, none, none, some true⟩ (by decide)).1

/-- Helper: reading any position before the last of the flag list produced
by a new run yields a cancelled flag. -/
theorem getD_map_true_append (bs : List Bool) :
    ∀ i, i < bs.length → (bs.map (fun _ => true) ++ [false]).getD i true = true := by
  induction bs with
  | nil =>
      intro i hi
      simp at hi
  | cons b rest ih =>
      intro i hi
      cases i with
      | zero => rfl
      | succ j =>
          simp only [List.map_cons, List.cons_append, List.getD_cons_succ]
          exact ih j (by simpa using hi)

/-- Helper: one protocol step preserves the invariant that every flag but
the newest is cancelled. -/
theorem searchStep_preserves_cancelled (s : SearchCoordState) (ev : SearchEv)
    (h : ∀ i, i + 1 < s.flags.length → s.flags.getD i true = true) :
    ∀ i, i + 1 < (searchStep s ev).flags.length →
      (searchStep s ev).flags.getD i true = true := by
  cases ev with
  | newRun =>
      intro i hi
      simp only [searchStep] at hi ⊢
      have hlen : i < s.flags.length := by
        simp only [List.length_append, List.length_map, List.length_cons,
          List.length_nil] at hi
        omega
      exact getD_map_true_append s.flags i hlen
  | resolve gen data =>
      intro i hi
      simp only [searchStep] at hi ⊢
      by_cases hc : s.flags.getD gen true = true
      · rw [if_pos hc] at hi ⊢
        exact h i hi
      · rw [if_neg hc] at hi ⊢
        exact h i hi

/-- Helper: after any event sequence, every flag but the newest is
cancelled. -/
theorem searchRun_flags_cancelled (evs : List SearchEv) :
    ∀ i, i + 1 < (searchRun evs).flags.length →
      (searchRun evs).flags.getD i true = true := by
  simp only [searchRun]
  suffices h : ∀ (s : SearchCoordState),
      (∀ i, i + 1 < s.flags.length → s.flags.getD i true = true) →
      ∀ i, i + 1 < (evs.foldl searchStep s).flags.length →
        (evs.foldl searchStep s).flags.getD i true = true by
    refine h ⟨[], []⟩ ?_
    intro i hi
    simp at hi
  induction evs with
  | nil => intro s hs; exact hs
  | cons ev rest ih =>
      intro s hs
      simp only [List.foldl_cons]
      exact ih (searchStep s ev) (searchStep_preserves_cancelled s ev hs)

/-- C8: once a newer search run has started, a resolving older query is a
no-op: its closure's cancelled flag, captured at launch and checked before
setResults, was set by the cleanup the newer run triggered, so the stale
data never overwrites the displayed results (nor anything else in the
coordinator state). -/
theorem c8_stale_search_result_discarded :
    ∀ (evs : List SearchEv) (gen : Nat) (data : List ChildRow),
      gen + 1 < (searchRun evs).flags.length →
      searchStep (searchRun evs) (SearchEv.resolve gen data) = searchRun evs := by
  intro evs gen data hg
  have h := searchRun_flags_cancelled evs gen hg
  simp only [searchStep]
  rw [if_pos h]

/-- C8 witness: with two runs launched, the first run's late result leaves
the state unchanged. -/
theorem c8_stale_search_result_witness :
    searchStep (searchRun [SearchEv.newRun, SearchEv.newRun])
        (SearchEv.resolve 0 []) =
      searchRun [SearchEv.newRun, SearchEv.newRun] :=
  c8_stale_search_result_discarded [SearchEv.newRun, SearchEv.newRun] 0 []
    (by decide)

/-- Helper: the two sequential global replacements equal the single-pass
per-character escaping. -/
theorem escape_both_eq_single_pass (l : List Char) :
    escapeCharWith '_' (escapeCharWith '%' l) = escapeWildcards l := by
  induction l with
  | nil => rfl
  | cons c rest ih =>
      by_cases h1 : c = '%'
      · subst h1
        simp [escapeCharWith, escapeWildcards, escapeWildcardChar, ih]
      · by_cases h2 : c = '_'
        · subst h2
          simp [escapeCharWith, escapeWildcards, escapeWildcardChar, ih]
        · simp [escapeCharWith, escapeWildcards, escapeWildcardChar, h1, h2, ih]

/-- Helper: the single-pass escaping output has a backslash immediately
before every wildcard character, whatever precedes it. -/
theorem wildcardsEscapedAux_single_pass (l : List Char) :
    ∀ prev, wildcardsEscapedAux prev (escapeWildcards l) = true := by
  induction l with
  | nil => intro prev; rfl
  | cons c rest ih =>
      intro prev
      by_cases h : c = '%' ∨ c = '_'
      · rcases h with h | h <;> subst h <;>
          simp [escapeWildcards, escapeWildcardChar, wildcardsEscapedAux, ih]
      · have h1 : c ≠ '%' := fun e => h (Or.inl e)
        have h2 : c ≠ '_' := fun e => h (Or.inr e)
        simp [escapeWildcards, escapeWildcardChar, h, wildcardsEscapedAux, h1, h2, ih]

/-- C10: the escaping the child and guardian searches share rewrites the
term into the single-pass form where every percent and underscore is
emitted with a backslash prefix and all other characters verbatim, so
every wildcard character in the escaped term carries an immediately
preceding backslash; the pattern sent to the store wraps the escaped term
in bare percents. -/
theorem c10_search_terms_escaped :
    ∀ q : String,
      escapeLike q = ⟨escapeWildcards q.data⟩ ∧
      wildcardsEscaped (escapeLike q) = true ∧
      likePattern q = "%" ++ escapeLike q ++ "%" := by
  intro q
  have hdata : (escapeLike q).data = escapeWildcards q.data := by
    show escapeCharWith '_' (escapeCharWith '%' q.data) = _
    exact escape_both_eq_single_pass q.data
  refine ⟨?_, ?_, rfl⟩
  · show (⟨escapeCharWith '_' (escapeCharWith '%' q.data)⟩ : String) = _
    rw [escape_both_eq_single_pass]
  · show wildcardsEscapedAux none (escapeLike q).data = true
    rw [hdata]
    exact wildcardsEscapedAux_single_pass q.data none

end KidsChurch
